import Mathlib

/-!
Verification of the djc-core template-tag parser and compiler
(`parse_tag` / `compile_tag` / `CompiledCall.invoke`).

The repository ships the core engine as a compiled extension; the Python
sources contain only the test suites exercising it.  The engine itself is
therefore modelled here from the repository's design specification
(grammar, AST shapes, static validator, compiler step semantics), and the
model's concrete behaviour is pinned by the literal inputs/outputs of the
repository's test files.  All definitions are executable so that theorems
about concrete template inputs can be settled by evaluation.
-/

/-- Runtime value as exchanged with the four user callbacks.  Models the
Python values appearing in the test suites: strings, ints, floats (kept as
their literal text, the core never computes with them), booleans, `None`,
lists and insertion-ordered dicts. -/
inductive Val where
  | str (s : String)
  | int (n : Int)
  | float (lit : String)
  | bool (b : Bool)
  | none
  | list (xs : List Val)
  | dict (entries : List (Val × Val))

mutual

/-- Structural equality on runtime values (Python `==` on the fragment used
by the tests). -/
def Val.beq : Val → Val → Bool
  | .str a, .str b => a == b
  | .int a, .int b => a == b
  | .float a, .float b => a == b
  | .bool a, .bool b => a == b
  | .none, .none => true
  | .list xs, .list ys => Val.beqList xs ys
  | .dict xs, .dict ys => Val.beqEntries xs ys
  | _, _ => false

/-- Pointwise equality of value lists. -/
def Val.beqList : List Val → List Val → Bool
  | [], [] => true
  | x :: xs, y :: ys => Val.beq x y && Val.beqList xs ys
  | _, _ => false

/-- Pointwise equality of dict entry lists. -/
def Val.beqEntries : List (Val × Val) → List (Val × Val) → Bool
  | [], [] => true
  | (k1, v1) :: xs, (k2, v2) :: ys => Val.beq k1 k2 && Val.beq v1 v2 && Val.beqEntries xs ys
  | _, _ => false

end

/-- Python type name of a runtime value, as used in spread error messages
(`'list' object is not a mapping`, `'NoneType' object is not a mapping`). -/
def typeName : Val → String
  | .str _ => "str"
  | .int _ => "int"
  | .float _ => "float"
  | .bool _ => "bool"
  | .none => "NoneType"
  | .list _ => "list"
  | .dict _ => "dict"

/-- Errors raised by the engine, tagged with the Python exception class the
tests match on (`SyntaxError` for grammar/flag/order errors, `TypeError`
for spread type failures, `KeyError` for a failed context lookup inside the
test suites' `variable` callback). -/
inductive Err where
  | syntaxError (msg : String)
  | typeError (msg : String)
  | keyError (msg : String)

/-- Variable-lookup context: an ordered mapping from names to values,
modelling the plain Python dicts the tests pass as `context`. -/
abbrev Ctx := List (String × Val)

/-- Substring `input[a:b]` of the original character stream. -/
def extractStr (chars : List Char) (a b : Nat) : String :=
  String.mk ((chars.drop a).take (b - a))

/-- Walk the first `n` characters accumulating the 1-based line and column. -/
def lineColAux : List Char → Nat → Nat → Nat → Nat × Nat
  | _, 0, line, col => (line, col)
  | [], _ + 1, line, col => (line, col)
  | c :: rest, n + 1, line, col =>
    if c = '\n' then lineColAux rest n (line + 1) 1 else lineColAux rest n line (col + 1)

/-- 1-based `(line, column)` of character offset `pos` in the input, computed
from the original input (the spec fixes spans to be derived from the input
exactly once). -/
def lineColAt (chars : List Char) (pos : Nat) : Nat × Nat :=
  lineColAux chars pos 1 1

/-- A lexical token: verbatim slice of the input plus its span. -/
structure TagToken where
  token : String
  start_index : Nat
  end_index : Nat
  line_col : Nat × Nat

/-- Build the token covering `input[a:b]`, stamping the span from the
original input. -/
def mkTok (chars : List Char) (a b : Nat) : TagToken :=
  { token := extractStr chars a b, start_index := a, end_index := b, line_col := lineColAt chars a }

/-- Value kinds of the AST (the source exposes them as tagged strings;
`var` models the source's "variable" kind, which is a reserved word here). -/
inductive ValueKind where
  | string
  | template_string
  | translation
  | int
  | float
  | bool
  | none
  | var
  | list
  | dict
deriving DecidableEq

/-- Spread markers: `*` (star), `**` (dstar), `...` (ellipsis); the source
stores them as the literal strings. -/
inductive SpreadKind where
  | star
  | dstar
  | ellipsis
deriving DecidableEq

mutual

/-- AST value node: token, ordered children (list elements, or alternating
dict key/value slots where a spread child occupies a single slot), kind,
optional spread marker, filter pipeline, and the node's own span (which
includes any spread marker and trailing filters). -/
inductive TagValue where
  | mk (token : TagToken) (children : List TagValue) (kind : ValueKind)
      (spread : Option SpreadKind) (filters : List TagValueFilter)
      (start_index : Nat) (end_index : Nat) (line_col : Nat × Nat)

/-- A `|name` or `|name:arg` filter application; spans from the `|`. -/
inductive TagValueFilter where
  | mk (token : TagToken) (arg : Option TagValue)
      (start_index : Nat) (end_index : Nat) (line_col : Nat × Nat)

end

def TagValue.token : TagValue → TagToken
  | .mk t _ _ _ _ _ _ _ => t

def TagValue.children : TagValue → List TagValue
  | .mk _ c _ _ _ _ _ _ => c

def TagValue.kind : TagValue → ValueKind
  | .mk _ _ k _ _ _ _ _ => k

def TagValue.spread : TagValue → Option SpreadKind
  | .mk _ _ _ s _ _ _ _ => s

def TagValue.filters : TagValue → List TagValueFilter
  | .mk _ _ _ _ f _ _ _ => f

def TagValue.start_index : TagValue → Nat
  | .mk _ _ _ _ _ a _ _ => a

def TagValue.end_index : TagValue → Nat
  | .mk _ _ _ _ _ _ b _ => b

def TagValueFilter.token : TagValueFilter → TagToken
  | .mk t _ _ _ _ => t

def TagValueFilter.arg : TagValueFilter → Option TagValue
  | .mk _ a _ _ _ => a

/-- One tag attribute: optional `key=` token, value, and flag marker. -/
structure TagAttr where
  key : Option TagToken
  value : TagValue
  is_flag : Bool
  start_index : Nat
  end_index : Nat
  line_col : Nat × Nat

/-- The parsed tag.  `dialect` models the source's tag-variant field
(exposed as the tagged string "django"), named differently here because the
source's field name is reserved. -/
structure Tag where
  name : TagToken
  attrs : List TagAttr
  is_self_closing : Bool
  dialect : String
  start_index : Nat
  end_index : Nat
  line_col : Nat × Nat

/- ### Character classes and scanning primitives -/

def isWsChar (c : Char) : Bool :=
  c = ' ' || c = '\t' || c = '\n' || c = '\r'

/-- Characters allowed inside a bare token (identifier, number, dotted
variable path). -/
def isTokenChar (c : Char) : Bool :=
  c.isAlphanum || c = '_' || c = '.'

/-- Does `pat` occur verbatim at offset `pos`? -/
def matchAt (chars : List Char) (pos : Nat) (pat : List Char) : Bool :=
  pat.isPrefixOf (chars.drop pos)

/-- Advance `pos` over characters satisfying `p`; fuel-bounded. -/
def scanWhile (fuel : Nat) (chars : List Char) (p : Char → Bool) (pos : Nat) : Nat :=
  match fuel with
  | 0 => pos
  | fuel + 1 =>
    match chars[pos]? with
    | Option.some c => if p c then scanWhile fuel chars p (pos + 1) else pos
    | Option.none => pos

/-- Position just past the next occurrence of the unescaped closing quote
`q`, or `none` if the string never closes. -/
def scanStringEnd (fuel : Nat) (chars : List Char) (q : Char) (pos : Nat) : Option Nat :=
  match fuel with
  | 0 => Option.none
  | fuel + 1 =>
    match chars[pos]? with
    | Option.some c => if c = q then Option.some (pos + 1) else scanStringEnd fuel chars q (pos + 1)
    | Option.none => Option.none

/-- Position just past the closing `#}` of a comment, or `none`. -/
def scanCommentEnd (fuel : Nat) (chars : List Char) (pos : Nat) : Option Nat :=
  match fuel with
  | 0 => Option.none
  | fuel + 1 =>
    if matchAt chars pos ['#', '\x7d'] then Option.some (pos + 2)
    else match chars[pos]? with
      | Option.some _ => scanCommentEnd fuel chars (pos + 1)
      | Option.none => Option.none

/-- Skip insignificant whitespace and `{# … #}` comments (comments are legal
wherever whitespace is and never reach the AST). -/
def skipWs (fuel : Nat) (chars : List Char) (pos : Nat) : Except Err Nat :=
  match fuel with
  | 0 => Except.ok pos
  | fuel + 1 =>
    match chars[pos]? with
    | Option.none => Except.ok pos
    | Option.some c =>
      if isWsChar c then skipWs fuel chars (pos + 1)
      else if matchAt chars pos ['\x7b', '#'] then
        match scanCommentEnd (chars.length + 2) chars (pos + 2) with
        | Option.some p2 => skipWs fuel chars p2
        | Option.none => Except.error (Err.syntaxError "unterminated comment")
      else Except.ok pos

/-- Does `pat` occur anywhere in `s`? -/
def containsSeq (s pat : List Char) : Bool :=
  (List.range (s.length + 1)).any (fun i => pat.isPrefixOf (s.drop i))

/-- Does the inner text of a quoted string turn it into a template string
(it contains any tag/variable/comment marker)? -/
def hasTemplateMarker (inner : List Char) : Bool :=
  containsSeq inner ['\x7b', '%'] || containsSeq inner ['%', '\x7d'] ||
  containsSeq inner ['\x7b', '\x7b'] || containsSeq inner ['\x7d', '\x7d'] ||
  containsSeq inner ['\x7b', '#'] || containsSeq inner ['#', '\x7d']

/-- Is the bare token a decimal integer? -/
def isIntToken (s : List Char) : Bool :=
  !s.isEmpty && s.all (·.isDigit)

/-- Is the bare token a decimal float (digits with a `.` present)? -/
def isFloatToken (s : List Char) : Bool :=
  !s.isEmpty && s.all (fun c => c.isDigit || c = '.') &&
    s.any (· = '.') && s.any (·.isDigit)

/-- Classify a bare token by its leading pattern, per the spec's kind table:
decimal integer, decimal float, `true`/`false`, `none`/`null`, otherwise a
variable. -/
def classifyBare (s : List Char) : ValueKind :=
  if isIntToken s then ValueKind.int
  else if isFloatToken s then ValueKind.float
  else if s = "true".data || s = "false".data then ValueKind.bool
  else if s = "none".data || s = "null".data then ValueKind.none
  else ValueKind.var

/- ### The grammar, modelled from the spec

Modelled from the spec: the repository's grammar/AST/validator engine is a
compiled extension absent from the Python sources; the recursive-descent
parser below follows the spec's grammar productions (tag, attr, value,
list, dict, filter, translation, spread markers, comments) and the span
conventions exhibited by the repository's parser test suite.  All
recursion is fuel-bounded; `parse_tag` supplies ample fuel. -/

/-- Rebuild an atom with its filter chain attached, the element-level
spread marker, and the final end position.  A spread node's span starts
`marker length` characters before its operand (the engine stamps the span
this way even when whitespace separates `*`/`**` from the operand). -/
def assembleValue (chars : List Char) (atom : TagValue) (fs : List TagValueFilter)
    (spread : Option (SpreadKind × Nat)) (endPos : Nat) : TagValue :=
  match atom with
  | .mk tok ch k _ _ a _ _ =>
    match spread with
    | Option.none => TagValue.mk tok ch k Option.none fs a endPos (lineColAt chars a)
    | Option.some (sk, len) =>
      TagValue.mk tok ch k (Option.some sk) fs (a - len) endPos (lineColAt chars (a - len))

/-- A filter argument's node span starts at the `:` introducing it. -/
def argValueSpan (chars : List Char) (atom : TagValue) (colonPos endPos : Nat) : TagValue :=
  match atom with
  | .mk tok ch k sp fs _ _ _ =>
    TagValue.mk tok ch k sp fs colonPos endPos (lineColAt chars colonPos)

mutual

/-- Parse one atom (string, translation, dict, list, or bare token) at
`pos`; returns the node (no filters, no spread) and the next position. -/
def parseAtom (fuel : Nat) (chars : List Char) (pos : Nat) : Except Err (TagValue × Nat) :=
  match fuel with
  | 0 => Except.error (Err.syntaxError "parser fuel exhausted")
  | fuel + 1 =>
    match chars[pos]? with
    | Option.none => Except.error (Err.syntaxError "expected value")
    | Option.some c =>
      if c = '\'' || c = '"' then
        match scanStringEnd (chars.length + 2) chars c (pos + 1) with
        | Option.some tokEnd =>
          let inner := (chars.drop (pos + 1)).take (tokEnd - 1 - (pos + 1))
          let kind := if hasTemplateMarker inner then ValueKind.template_string else ValueKind.string
          Except.ok (TagValue.mk (mkTok chars pos tokEnd) [] kind Option.none [] pos tokEnd
            (lineColAt chars pos), tokEnd)
        | Option.none => Except.error (Err.syntaxError "unterminated string")
      else if matchAt chars pos ['_', '('] then do
        let p1 ← skipWs (chars.length + 2) chars (pos + 2)
        match chars[p1]? with
        | Option.some q =>
          if q = '\'' || q = '"' then
            match scanStringEnd (chars.length + 2) chars q (p1 + 1) with
            | Option.some qEnd => do
              let p2 ← skipWs (chars.length + 2) chars qEnd
              if matchAt chars p2 [')'] then
                let canon := "_(" ++ extractStr chars p1 qEnd ++ ")"
                let tok : TagToken :=
                  { token := canon, start_index := pos, end_index := p2 + 1,
                    line_col := lineColAt chars pos }
                Except.ok (TagValue.mk tok [] ValueKind.translation Option.none [] pos (p2 + 1)
                  (lineColAt chars pos), p2 + 1)
              else Except.error (Err.syntaxError "expected value")
            | Option.none => Except.error (Err.syntaxError "unterminated string")
          else Except.error (Err.syntaxError "expected value")
        | Option.none => Except.error (Err.syntaxError "expected value")
      else if c = '\x7b' then parseDictRest fuel chars pos
      else if c = '[' then parseListRest fuel chars pos
      else if isTokenChar c then
        let e := scanWhile (chars.length + 2) chars isTokenChar pos
        let tokChars := (chars.drop pos).take (e - pos)
        Except.ok (TagValue.mk (mkTok chars pos e) [] (classifyBare tokChars) Option.none [] pos e
          (lineColAt chars pos), e)
      else Except.error (Err.syntaxError "expected value")
termination_by structural fuel

/-- Parse a dict literal whose opening brace sits at `pos`. -/
def parseDictRest (fuel : Nat) (chars : List Char) (pos : Nat) : Except Err (TagValue × Nat) :=
  match fuel with
  | 0 => Except.error (Err.syntaxError "parser fuel exhausted")
  | fuel + 1 => do
    let (children, endPos) ← parseDictItems fuel chars (pos + 1) []
    Except.ok (TagValue.mk (mkTok chars pos endPos) children ValueKind.dict Option.none [] pos
      endPos (lineColAt chars pos), endPos)
termination_by structural fuel

/-- Parse the next dict item (a `**value` spread slot, or a key/value pair
contributing two child slots); `**` permits whitespace before its operand
and the operand's filters may take `:`-arguments, while a key's filters may
not (the `:` is the pair separator). -/
def parseDictItems (fuel : Nat) (chars : List Char) (pos : Nat) (acc : List TagValue) :
    Except Err (List TagValue × Nat) :=
  match fuel with
  | 0 => Except.error (Err.syntaxError "parser fuel exhausted")
  | fuel + 1 => do
    let p ← skipWs (chars.length + 2) chars pos
    if matchAt chars p ['\x7d'] then Except.ok (acc, p + 1)
    else if matchAt chars p ['*', '*'] then do
      let p1 ← skipWs (chars.length + 2) chars (p + 2)
      let (v, p2) ← parseValueFull fuel chars p1 true (Option.some (SpreadKind.dstar, 2))
      parseDictSep fuel chars p2 (acc ++ [v])
    else if matchAt chars p ['.', '.', '.'] || matchAt chars p ['*'] then
      Except.error (Err.syntaxError "expected dict_item_spread, dict_key, or COMMENT")
    else do
      let (keyAtom, p1) ← parseAtom fuel chars p
      let (keyFilters, p2) ← parseFilterChain fuel chars p1 false []
      let key := assembleValue chars keyAtom keyFilters Option.none p2
      let p3 ← skipWs (chars.length + 2) chars p2
      if matchAt chars p3 [':'] then do
        let p4 ← skipWs (chars.length + 2) chars (p3 + 1)
        let (v, p5) ← parseValueFull fuel chars p4 true Option.none
        parseDictSep fuel chars p5 (acc ++ [key, v])
      else Except.error (Err.syntaxError "expected filter_noarg or COMMENT")
termination_by structural fuel

/-- After a dict item: `,` continues (a trailing comma is allowed), `}`
closes. -/
def parseDictSep (fuel : Nat) (chars : List Char) (pos : Nat) (acc : List TagValue) :
    Except Err (List TagValue × Nat) :=
  match fuel with
  | 0 => Except.error (Err.syntaxError "parser fuel exhausted")
  | fuel + 1 => do
    let p ← skipWs (chars.length + 2) chars pos
    if matchAt chars p [','] then parseDictItems fuel chars (p + 1) acc
    else if matchAt chars p ['\x7d'] then Except.ok (acc, p + 1)
    else Except.error (Err.syntaxError "expected dict separator")
termination_by structural fuel

/-- Parse a list literal whose opening bracket sits at `pos`. -/
def parseListRest (fuel : Nat) (chars : List Char) (pos : Nat) : Except Err (TagValue × Nat) :=
  match fuel with
  | 0 => Except.error (Err.syntaxError "parser fuel exhausted")
  | fuel + 1 => do
    let (children, endPos) ← parseListItems fuel chars (pos + 1) []
    Except.ok (TagValue.mk (mkTok chars pos endPos) children ValueKind.list Option.none [] pos
      endPos (lineColAt chars pos), endPos)
termination_by structural fuel

/-- Parse the next list element (`*value` spread with whitespace allowed
after the star, or a plain value); `**` and `...` are rejected here. -/
def parseListItems (fuel : Nat) (chars : List Char) (pos : Nat) (acc : List TagValue) :
    Except Err (List TagValue × Nat) :=
  match fuel with
  | 0 => Except.error (Err.syntaxError "parser fuel exhausted")
  | fuel + 1 => do
    let p ← skipWs (chars.length + 2) chars pos
    if matchAt chars p [']'] then Except.ok (acc, p + 1)
    else if matchAt chars p ['*', '*'] then
      Except.error (Err.syntaxError "expected value or COMMENT")
    else if matchAt chars p ['.', '.', '.'] then
      Except.error (Err.syntaxError "expected list_item or COMMENT")
    else if matchAt chars p ['*'] then do
      let p1 ← skipWs (chars.length + 2) chars (p + 1)
      let (v, p2) ← parseValueFull fuel chars p1 true (Option.some (SpreadKind.star, 1))
      parseListSep fuel chars p2 (acc ++ [v])
    else do
      let (v, p2) ← parseValueFull fuel chars p true Option.none
      parseListSep fuel chars p2 (acc ++ [v])
termination_by structural fuel

/-- After a list element: `,` continues (trailing comma allowed), `]`
closes. -/
def parseListSep (fuel : Nat) (chars : List Char) (pos : Nat) (acc : List TagValue) :
    Except Err (List TagValue × Nat) :=
  match fuel with
  | 0 => Except.error (Err.syntaxError "parser fuel exhausted")
  | fuel + 1 => do
    let p ← skipWs (chars.length + 2) chars pos
    if matchAt chars p [','] then parseListItems fuel chars (p + 1) acc
    else if matchAt chars p [']'] then Except.ok (acc, p + 1)
    else Except.error (Err.syntaxError "expected list separator")
termination_by structural fuel

/-- Parse the filter chain following a value: `|name` or (when `allowArgs`)
`|name:arg`; the argument is a single atom whose node span starts at the
`:`; whitespace is allowed around `|` and `:`.  Returns the filters and the
end of the last consumed filter (the original `pos` when there is none). -/
def parseFilterChain (fuel : Nat) (chars : List Char) (pos : Nat) (allowArgs : Bool)
    (acc : List TagValueFilter) : Except Err (List TagValueFilter × Nat) :=
  match fuel with
  | 0 => Except.error (Err.syntaxError "parser fuel exhausted")
  | fuel + 1 => do
    let p1 ← skipWs (chars.length + 2) chars pos
    if matchAt chars p1 ['|'] then do
      let p2 ← skipWs (chars.length + 2) chars (p1 + 1)
      let e := scanWhile (chars.length + 2) chars isTokenChar p2
      if e = p2 then Except.error (Err.syntaxError "expected filter_name or COMMENT")
      else do
        let nameTok := mkTok chars p2 e
        let p3 ← skipWs (chars.length + 2) chars e
        if allowArgs && matchAt chars p3 [':'] then do
          let p4 ← skipWs (chars.length + 2) chars (p3 + 1)
          let (argAtom, p5) ← parseAtom fuel chars p4
          let argVal := argValueSpan chars argAtom p3 p5
          let f := TagValueFilter.mk nameTok (Option.some argVal) p1 p5 (lineColAt chars p1)
          parseFilterChain fuel chars p5 allowArgs (acc ++ [f])
        else do
          let f := TagValueFilter.mk nameTok Option.none p1 e (lineColAt chars p1)
          parseFilterChain fuel chars e allowArgs (acc ++ [f])
    else Except.ok (acc, pos)
termination_by structural fuel

/-- Parse a full value: atom, filter chain, and optional outer spread
marker `(kind, marker length)` recorded on the node. -/
def parseValueFull (fuel : Nat) (chars : List Char) (pos : Nat) (allowArgs : Bool)
    (spread : Option (SpreadKind × Nat)) : Except Err (TagValue × Nat) :=
  match fuel with
  | 0 => Except.error (Err.syntaxError "parser fuel exhausted")
  | fuel + 1 => do
    let (atom, p1) ← parseAtom fuel chars pos
    let (fs, p2) ← parseFilterChain fuel chars p1 allowArgs []
    Except.ok (assembleValue chars atom fs spread p2, p2)

termination_by structural fuel
end

/-- Parse one attribute at `pos`: a `...`-spread positional (the marker
must touch its operand, which must be a list, dict, or variable), a
`key=value` pair (no spread allowed on the value), or a plain positional
value, which becomes a flag when it is a bare variable named in `flags`. -/
def parseAttr (fuel : Nat) (chars : List Char) (pos : Nat) (flags : List String) :
    Except Err (TagAttr × Nat) :=
  match fuel with
  | 0 => Except.error (Err.syntaxError "parser fuel exhausted")
  | fuel + 1 =>
    if matchAt chars pos ['.', '.', '.'] then do
      let (v, p2) ← parseValueFull fuel chars (pos + 3) true
        (Option.some (SpreadKind.ellipsis, 3))
      if v.kind = ValueKind.list || v.kind = ValueKind.dict || v.kind = ValueKind.var then
        Except.ok ({ key := Option.none, value := v, is_flag := false, start_index := pos,
                     end_index := p2, line_col := lineColAt chars pos }, p2)
      else Except.error (Err.syntaxError "expected value")
    else if matchAt chars pos ['*'] then
      Except.error (Err.syntaxError "expected self_closing_slash, attribute, or COMMENT")
    else
      let e := scanWhile (chars.length + 2) chars isTokenChar pos
      if pos < e && matchAt chars e ['='] then do
        let keyTok := mkTok chars pos e
        let p1 := e + 1
        if matchAt chars p1 ['.', '.', '.'] || matchAt chars p1 ['*'] then
          Except.error (Err.syntaxError "expected value")
        else do
          let (v, p2) ← parseValueFull fuel chars p1 true Option.none
          Except.ok ({ key := Option.some keyTok, value := v, is_flag := false,
                       start_index := pos, end_index := p2, line_col := lineColAt chars pos }, p2)
      else do
        let (v, p2) ← parseValueFull fuel chars pos true Option.none
        let isFlag := v.kind = ValueKind.var && v.filters.isEmpty && v.spread.isNone &&
          flags.contains v.token.token
        Except.ok ({ key := Option.none, value := v, is_flag := isFlag, start_index := pos,
                     end_index := p2, line_col := lineColAt chars pos }, p2)

/-- Parse the attribute list up to the closing delimiter, enforcing that a
flag appears at most once, that `/` only occurs immediately before `%}`,
and that `%}` ends the input. -/
def parseAttrs (fuel : Nat) (chars : List Char) (pos : Nat) (flags : List String)
    (acc : List TagAttr) (seen : List String) : Except Err (List TagAttr × Bool) :=
  match fuel with
  | 0 => Except.error (Err.syntaxError "parser fuel exhausted")
  | fuel + 1 => do
    let p ← skipWs (chars.length + 2) chars pos
    if matchAt chars p ['%', '\x7d'] then
      if p + 2 = chars.length then Except.ok (acc, false)
      else Except.error (Err.syntaxError "trailing characters after tag end")
    else if matchAt chars p ['/'] then do
      let p1 ← skipWs (chars.length + 2) chars (p + 1)
      if matchAt chars p1 ['%', '\x7d'] && p1 + 2 = chars.length then Except.ok (acc, true)
      else Except.error (Err.syntaxError "expected self_closing_slash, attribute, or COMMENT")
    else
      match chars[p]? with
      | Option.none => Except.error (Err.syntaxError "expected attribute or COMMENT")
      | Option.some _ => do
        let (a, p2) ← parseAttr fuel chars p flags
        if a.is_flag then
          let nm := a.value.token.token
          if seen.contains nm then
            Except.error (Err.syntaxError s!"Flag '{nm}' may be specified only once.")
          else parseAttrs fuel chars p2 flags (acc ++ [a]) (seen ++ [nm])
        else parseAttrs fuel chars p2 flags (acc ++ [a]) seen

/-- Modelled from the spec: `parse_tag(input, flags)` — the input must
start with `{%` and end with `%}`; the tag name comes first; the result is
the `Tag` AST with spans into the original input. -/
def parse_tag (input : String) (flags : List String) : Except Err Tag :=
  let chars := input.data
  let fuel := (chars.length + 4) * (chars.length + 4)
  if matchAt chars 0 ['\x7b', '%'] then do
    let p1 ← skipWs (chars.length + 2) chars 2
    let e := scanWhile (chars.length + 2) chars isTokenChar p1
    if e = p1 then Except.error (Err.syntaxError "expected tag name")
    else do
      let nameTok := mkTok chars p1 e
      let (attrs, selfC) ← parseAttrs fuel chars e flags [] []
      Except.ok { name := nameTok, attrs := attrs, is_self_closing := selfC,
                  dialect := "django", start_index := 0, end_index := chars.length,
                  line_col := nameTok.line_col }
  else Except.error (Err.syntaxError "expected tag start")

/- ### Runtime evaluation

Modelled from the spec: the compiler lowers a validated AST to an
evaluation plan executed left to right; a dict builds with insertion order
and later-wins collisions; `*`/`...list` spreads iterate, `**`/`...dict`
spreads require mappings; flags contribute nothing; the ordering rule is
checked statically where the attribute's contribution is known at compile
time and re-checked during execution for `...` spreads. -/

/-- Python dict insertion: a colliding key keeps its original position but
takes the later value; a fresh key appends. -/
def dictInsert (entries : List (Val × Val)) (k v : Val) : List (Val × Val) :=
  if entries.any (fun p => Val.beq p.1 k) then
    entries.map (fun p => if Val.beq p.1 k then (k, v) else p)
  else entries ++ [(k, v)]

/-- Merge new entries into a dict left to right. -/
def dictMerge (entries newEntries : List (Val × Val)) : List (Val × Val) :=
  newEntries.foldl (fun acc p => dictInsert acc p.1 p.2) entries

/-- Python iteration of a runtime value: lists yield elements, dicts yield
their keys, strings yield 1-character strings; other values are not
iterable. -/
def iterateVal : Val → Option (List Val)
  | .list xs => Option.some xs
  | .dict es => Option.some (es.map Prod.fst)
  | .str s => Option.some (s.data.map (fun c => Val.str (String.mk [c])))
  | _ => Option.none

/-- Strip the surrounding quotes of a string token. -/
def unquote (s : String) : String :=
  String.mk (s.data.drop 1).dropLast

/-- Inner text of a canonical translation token `_("inner")`. -/
def translationInner (s : String) : String :=
  unquote (String.mk (s.data.drop 2).dropLast)

/-- Numeric value of a decimal integer token. -/
def intOfDigits (s : String) : Int :=
  Int.ofNat (s.data.foldl (fun n c => n * 10 + (c.toNat - 48)) 0)

/-- The four user-supplied resolution callbacks handed to `invoke`
(`var` models the source's `variable` callback, a reserved word here). -/
structure Cbs where
  var : Ctx → String → Except Err Val
  template_string : Ctx → String → Except Err Val
  translation : Ctx → String → Except Err Val
  filter : Ctx → String → Val → Option Val → Except Err Val

mutual

/-- Evaluate one AST value node (ignoring its own attr/element-level spread
marker, which its context applies): literals push themselves, variables and
translation/template strings call back, lists and dicts build with element
spreads expanded, and the node's filter pipeline then runs left to right. -/
def evalValue (cb : Cbs) (ctx : Ctx) (v : TagValue) : Except Err Val :=
  match v with
  | .mk tok children kind _spread filters _ _ _ => do
    let base ← match kind with
      | .string => Except.ok (Val.str (unquote tok.token))
      | .template_string => cb.template_string ctx (unquote tok.token)
      | .translation => cb.translation ctx (translationInner tok.token)
      | .int => Except.ok (Val.int (intOfDigits tok.token))
      | .float => Except.ok (Val.float tok.token)
      | .bool => Except.ok (Val.bool (tok.token == "true"))
      | .none => Except.ok Val.none
      | .var => cb.var ctx tok.token
      | .list => do
        let xs ← evalListChildren cb ctx children []
        Except.ok (Val.list xs)
      | .dict => do
        let es ← evalDictChildren cb ctx children []
        Except.ok (Val.dict es)
    evalFilters cb ctx base filters
termination_by structural v

/-- Evaluate list elements left to right, expanding `*`-marked elements by
iterating their value. -/
def evalListChildren (cb : Cbs) (ctx : Ctx) (vs : List TagValue) (acc : List Val) :
    Except Err (List Val) :=
  match vs with
  | [] => Except.ok acc
  | c :: rest => do
    let v ← evalValue cb ctx c
    match c.spread with
    | Option.some _ =>
      match iterateVal v with
      | Option.some xs => evalListChildren cb ctx rest (acc ++ xs)
      | Option.none =>
        Except.error (Err.typeError s!"'{typeName v}' object is not iterable")
    | Option.none => evalListChildren cb ctx rest (acc ++ [v])
termination_by structural vs

/-- Evaluate dict slots left to right: a spread child occupies one slot and
must evaluate to a mapping, merged entrywise; otherwise the slot and the
next form a key/value pair. -/
def evalDictChildren (cb : Cbs) (ctx : Ctx) (vs : List TagValue) (acc : List (Val × Val)) :
    Except Err (List (Val × Val)) :=
  match vs with
  | [] => Except.ok acc
  | c :: rest =>
    if c.spread.isSome then do
      let v ← evalValue cb ctx c
      match v with
      | .dict es => evalDictChildren cb ctx rest (dictMerge acc es)
      | other => Except.error (Err.typeError s!"'{typeName other}' object is not a mapping")
    else
      match rest with
      | valNode :: rest2 => do
        let kv ← evalValue cb ctx c
        let vv ← evalValue cb ctx valNode
        evalDictChildren cb ctx rest2 (dictInsert acc kv vv)
      | [] => Except.error (Err.syntaxError "dict key without value")
termination_by structural vs

/-- Run the filter pipeline left to right; each filter's argument (when
present) is evaluated before the filter callback is invoked. -/
def evalFilters (cb : Cbs) (ctx : Ctx) (base : Val) (fs : List TagValueFilter) :
    Except Err Val :=
  match fs with
  | [] => Except.ok base
  | .mk tok arg _ _ _ :: rest => do
    let argVal ← match arg with
      | Option.none => Except.ok Option.none
      | Option.some a => do
        let av ← evalValue cb ctx a
        Except.ok (Option.some av)
    let r ← cb.filter ctx tok.token base argVal
    evalFilters cb ctx r rest

termination_by structural fs
end

/-- Error message of the argument-ordering rule. -/
def orderErrMsg : String := "positional argument follows keyword argument"

/-- Static ordering check over the attribute plan: flags contribute
nothing; `key=` (and a statically keyword `**` spread) marks keywords seen;
a plain positional (or statically positional `*` spread) after that fails;
`...` spreads are classified only at call time and pass the static check. -/
def staticOrderCheck : List TagAttr → Bool → Except Err Unit
  | [], _ => Except.ok ()
  | a :: rest, seenKw =>
    if a.is_flag then staticOrderCheck rest seenKw
    else
      match a.key with
      | Option.some _ => staticOrderCheck rest true
      | Option.none =>
        match a.value.spread with
        | Option.none =>
          if seenKw then Except.error (Err.syntaxError orderErrMsg)
          else staticOrderCheck rest seenKw
        | Option.some SpreadKind.ellipsis => staticOrderCheck rest seenKw
        | Option.some SpreadKind.star =>
          if seenKw then Except.error (Err.syntaxError orderErrMsg)
          else staticOrderCheck rest seenKw
        | Option.some SpreadKind.dstar => staticOrderCheck rest true

/-- The compiled, reusable evaluation plan: the non-flag attributes in
source order (a flag contributes no step). -/
structure CompiledCall where
  steps : List TagAttr

/-- Modelled from the spec: `compile_tag` runs the static ordering check
and produces the reusable plan. -/
def compile_tag (tag : Tag) : Except Err CompiledCall := do
  staticOrderCheck tag.attrs false
  Except.ok { steps := tag.attrs.filter (fun a => !a.is_flag) }

/-- Turn dict entries into keyword pairs (keyword names must be strings). -/
def kwargsOfEntries : List (Val × Val) → Except Err (List (String × Val))
  | [] => Except.ok []
  | (k, v) :: rest =>
    match k with
    | .str s => do
      let r ← kwargsOfEntries rest
      Except.ok ((s, v) :: r)
    | _ => Except.error (Err.typeError "keywords must be strings")

/-- Execute the attribute plan left to right, threading the positional and
keyword buffers and the runtime keywords-seen flag (re-checking the
ordering rule for spreads classified at call time). -/
def invokeAttrs (cb : Cbs) (ctx : Ctx) : List TagAttr → List Val → List (String × Val) →
    Bool → Except Err (List Val × List (String × Val))
  | [], args, kwargs, _ => Except.ok (args, kwargs)
  | a :: rest, args, kwargs, seenKw =>
    match a.key with
    | Option.some k => do
      let v ← evalValue cb ctx a.value
      invokeAttrs cb ctx rest args (kwargs ++ [(k.token, v)]) true
    | Option.none =>
      match a.value.spread with
      | Option.none => do
        if seenKw then Except.error (Err.syntaxError orderErrMsg)
        else do
          let v ← evalValue cb ctx a.value
          invokeAttrs cb ctx rest (args ++ [v]) kwargs seenKw
      | Option.some SpreadKind.ellipsis => do
        let v ← evalValue cb ctx a.value
        match v with
        | .dict es => do
          let kws ← kwargsOfEntries es
          invokeAttrs cb ctx rest args (kwargs ++ kws) true
        | other =>
          match iterateVal other with
          | Option.some xs =>
            if seenKw then Except.error (Err.syntaxError orderErrMsg)
            else invokeAttrs cb ctx rest (args ++ xs) kwargs seenKw
          | Option.none =>
            Except.error (Err.typeError s!"'{typeName other}' object is not iterable")
      | Option.some SpreadKind.star => do
        let v ← evalValue cb ctx a.value
        match iterateVal v with
        | Option.some xs =>
          if seenKw then Except.error (Err.syntaxError orderErrMsg)
          else invokeAttrs cb ctx rest (args ++ xs) kwargs seenKw
        | Option.none =>
          Except.error (Err.typeError s!"'{typeName v}' object is not iterable")
      | Option.some SpreadKind.dstar => do
        let v ← evalValue cb ctx a.value
        match v with
        | .dict es => do
          let kws ← kwargsOfEntries es
          invokeAttrs cb ctx rest args (kwargs ++ kws) true
        | other =>
          Except.error (Err.typeError s!"'{typeName other}' object is not a mapping")

/-- Modelled from the spec: `CompiledCall.invoke(context, callbacks)`
returns the positional and keyword buffers. -/
def CompiledCall.invoke (cc : CompiledCall) (ctx : Ctx) (cb : Cbs) :
    Except Err (List Val × List (String × Val)) :=
  invokeAttrs cb ctx cc.steps [] [] false

/-- Parse, compile and invoke in sequence (the shape every test exercises). -/
def pipeline (input : String) (flags : List String) (ctx : Ctx) (cb : Cbs) :
    Except Err (List Val × List (String × Val)) := do
  let tag ← parse_tag input flags
  let cc ← compile_tag tag
  cc.invoke ctx cb

/- ### The callbacks used by the test suites -/

/-- The test suites' `variable` callback: `lambda ctx, var: ctx[var]`
(a missing name raises `KeyError`). -/
def ctxLookup (ctx : Ctx) (name : String) : Except Err Val :=
  match ctx.find? (fun p => p.1 == name) with
  | Option.some p => Except.ok p.2
  | Option.none => Except.error (Err.keyError name)

/-- The test suites' `template_string` callback. -/
def templateResolve : Ctx → String → Except Err Val :=
  fun _ s => Except.ok (Val.str ("TEMPLATE_RESOLVED:" ++ s))

/-- The test suites' `translation` callback. -/
def translationResolve : Ctx → String → Except Err Val :=
  fun _ s => Except.ok (Val.str ("TRANSLATION_RESOLVED:" ++ s))

/-- An inert callback standing in for the tests' unused `Mock()` slots. -/
def mockResolve : Ctx → String → Except Err Val :=
  fun _ _ => Except.ok Val.none

/-- An inert filter callback standing in for the tests' unused `Mock()`. -/
def mockFilter : Ctx → String → Val → Option Val → Except Err Val :=
  fun _ _ _ _ => Except.ok Val.none

/-- Callback bundle with the standard lookups and a given filter. -/
def stdCbs (f : Ctx → String → Val → Option Val → Except Err Val) : Cbs :=
  { var := ctxLookup, template_string := templateResolve,
    translation := translationResolve, filter := f }

/- ### Concrete template inputs from the specification scenarios and tests -/

/-- Scenario input: a keyword attribute followed by a positional one. -/
def inputKwThenPos : String := "\x7b% t key='value' positional_arg %\x7d"

/-- Scenario input: a dict-literal `...` spread followed by a positional. -/
def inputDictSpreadThenPos : String := "\x7b% t ...\x7b'k':'v'\x7d positional_arg %\x7d"

/-- Scenario input: a list-literal `...` spread followed by a positional. -/
def inputListSpreadThenPos : String := "\x7b% t ...[1,2,3] positional_arg %\x7d"

/-- Scenario input: dict literal interleaving pairs and a `**` spread. -/
def inputDictInterleaved : String :=
  "\x7b% c data=\x7b\"key\": val, **spread, \"key2\": val2\x7d %\x7d"

/-- Test input: a nested dict spread whose key collides with a later pair. -/
def inputDictCollision : String :=
  "\x7b% component \x7b **\x7b\"key\": val2\x7d, \"key\": val1 \x7d %\x7d"

/-- Test input: translation with inner whitespace. -/
def inputTranslationWs : String := "\x7b% component value=_(  \"test\"  ) %\x7d"

/-- Test input: a bare `**` dict spread. -/
def inputDictSpreadOnly : String := "\x7b% component data=\x7b **spread \x7d %\x7d"

/-- Scenario input: a bare flag attribute. -/
def inputBareFlag : String := "\x7b% t my_flag %\x7d"

/-- Test input: `**` spread with a filter whose argument follows a colon. -/
def inputSpreadColonFilter : String := "\x7b% component data=\x7b**spread|abc: 123 \x7d %\x7d"

/-- Test input: `**` and `*` spreads with whitespace after the markers. -/
def inputWsSpreads : String :=
  "\x7b% component dict=\x7b\"a\": \"b\", ** my_attr\x7d list=[\"a\", * my_list] %\x7d"

/-- Test input: the same keyword declared twice. -/
def inputDupKwarg : String := "\x7b% t key_five=1 key_five=2 %\x7d"

/-- The test suites' filter callback for the `abc` filter of the
spread-with-colon test: `{**value, "ABC": arg}` on the exercised branch
(the generic formatting branch is never reached there and is modelled
as the identity). -/
def abcFilter : Ctx → String → Val → Option Val → Except Err Val :=
  fun _ name v arg =>
    if name == "abc" then
      match v with
      | .dict es => Except.ok (.dict (dictInsert es (.str "ABC") (arg.getD .none)))
      | other => Except.ok other
    else Except.ok v

/- ### Claims -/

/-- C2: for `{% t ...{'k':'v'} positional_arg %}` compilation succeeds
(the ordering violation is not detected statically) and, for every context
and callback bundle, invoking the compiled call fails with the deferred
OrderError `positional argument follows keyword argument`. -/
theorem dict_spread_then_positional_deferred_order_error (ctx : Ctx) (cb : Cbs) :
    ∃ t cc, parse_tag inputDictSpreadThenPos [] = Except.ok t ∧
      compile_tag t = Except.ok cc ∧
      cc.invoke ctx cb = Except.error (Err.syntaxError orderErrMsg) :=
  ⟨_, _, rfl, rfl, rfl⟩

/-- C2 witness: the deferred order error at a concrete context and the
test suites' callbacks. -/
theorem dict_spread_then_positional_deferred_order_error_witness :
    ∃ t cc, parse_tag inputDictSpreadThenPos [] = Except.ok t ∧
      compile_tag t = Except.ok cc ∧
      cc.invoke [] (stdCbs mockFilter) = Except.error (Err.syntaxError orderErrMsg) :=
  dict_spread_then_positional_deferred_order_error [] (stdCbs mockFilter)

/-- C3: invoking the compilation of `{% t ...[1,2,3] positional_arg %}`
with `positional_arg ↦ 4` and the identity variable callback yields the
positional buffer `[1, 2, 3, 4]` in source order and no keywords. -/
theorem list_spread_then_positional_args_in_order :
    pipeline inputListSpreadThenPos [] [("positional_arg", Val.int 4)] (stdCbs mockFilter) =
      Except.ok ([Val.int 1, Val.int 2, Val.int 3, Val.int 4], []) := rfl

/-- C4: the dict literal `{"key": val, **spread, "key2": val2}` with
`spread ↦ {a: 1}`, `val ↦ "HELLO"`, `val2 ↦ "WORLD"` yields the single
kwarg `("data", {"key": "HELLO", "a": 1, "key2": "WORLD"})` — entries in
source/spread insertion order; and (nested-spread collision test) a later
pair overrides a key spread in earlier, the later value winning. -/
theorem dict_literal_spread_insertion_order :
    (pipeline inputDictInterleaved []
        [("spread", Val.dict [(Val.str "a", Val.int 1)]), ("val", Val.str "HELLO"),
          ("val2", Val.str "WORLD")] (stdCbs mockFilter) =
      Except.ok ([], [("data", Val.dict [(Val.str "key", Val.str "HELLO"),
        (Val.str "a", Val.int 1), (Val.str "key2", Val.str "WORLD")])])) ∧
    (pipeline inputDictCollision [] [("val1", Val.int 1), ("val2", Val.int 2)]
        (stdCbs mockFilter) =
      Except.ok ([Val.dict [(Val.str "key", Val.int 1)]], [])) :=
  ⟨rfl, rfl⟩

/-- The AST the parser test expects for `{% component data={**spread|abc: 123 } %}`:
inside the dict literal, `**spread|abc: 123` is one `**`-spread item — the
variable `spread` carrying one filter `abc` with int argument `123`. -/
def tagSpreadColonFilter : Tag :=
  ⟨⟨"component", 3, 12, (1, 4)⟩,
    [⟨Option.some ⟨"data", 13, 17, (1, 14)⟩,
      TagValue.mk ⟨"\x7b**spread|abc: 123 \x7d", 18, 38, (1, 19)⟩
        [TagValue.mk ⟨"spread", 21, 27, (1, 22)⟩ [] ValueKind.var
          (Option.some SpreadKind.dstar)
          [TagValueFilter.mk ⟨"abc", 28, 31, (1, 29)⟩
            (Option.some (TagValue.mk ⟨"123", 33, 36, (1, 34)⟩ [] ValueKind.int
              Option.none [] 31 36 (1, 32)))
            27 36 (1, 28)]
          19 36 (1, 20)]
        ValueKind.dict Option.none [] 18 38 (1, 19),
      false, 13, 38, (1, 14)⟩],
    false, "django", 0, 41, (1, 4)⟩

/-- C9: `{% component data={**spread|abc: 123 } %}` parses to exactly the
spread-item AST above (not a key/value pair), and invoking the compiled
call with `spread ↦ {6: 7}` and the test's `abc` filter applies the filter
to the resolved variable before merging into the dict. -/
theorem dstar_spread_with_filter_arg_parse_and_invoke :
    parse_tag inputSpreadColonFilter [] = Except.ok tagSpreadColonFilter ∧
    pipeline inputSpreadColonFilter [] [("spread", Val.dict [(Val.int 6, Val.int 7)])]
        (stdCbs abcFilter) =
      Except.ok ([], [("data", Val.dict [(Val.int 6, Val.int 7), (Val.str "ABC", Val.int 123)])]) :=
  ⟨rfl, rfl⟩

/-- C10: in `{% component dict={"a": "b", ** my_attr} list=["a", * my_list] %}`,
a `*` list element accepts any iterable — with `my_list ↦ {8: 9}` the
expansion yields the dict's keys (`["a", 8]`) without error — while the
`**` element in the same tag still requires a mapping (`my_attr ↦ [6, 7]`
raises `'list' object is not a mapping`). -/
theorem star_spread_accepts_iterable_dstar_requires_mapping :
    (pipeline inputWsSpreads []
        [("my_attr", Val.dict [(Val.int 6, Val.int 7)]), ("my_list", Val.dict [(Val.int 8, Val.int 9)])]
        (stdCbs mockFilter) =
      Except.ok ([], [("dict", Val.dict [(Val.str "a", Val.str "b"), (Val.int 6, Val.int 7)]),
        ("list", Val.list [Val.str "a", Val.int 8])])) ∧
    (pipeline inputWsSpreads []
        [("my_attr", Val.list [Val.int 6, Val.int 7]), ("my_list", Val.list [Val.int 8, Val.int 9])]
        (stdCbs mockFilter) =
      Except.error (Err.typeError "'list' object is not a mapping")) :=
  ⟨rfl, rfl⟩

/-- Is the runtime value a mapping? -/
def isMapping : Val → Bool
  | .dict _ => true
  | _ => false

/-- C6: executing the `**` dict spread of `{% component data={ **spread } %}`
with any non-mapping runtime operand fails with the typed error naming the
operand's runtime type: `'T' object is not a mapping`. -/
theorem dict_spread_non_mapping_type_error (v : Val) (h : isMapping v = false) :
    pipeline inputDictSpreadOnly [] [("spread", v)] (stdCbs mockFilter) =
      Except.error (Err.typeError ("'" ++ typeName v ++ "' object is not a mapping")) := by
  cases v with
  | dict es => simp [isMapping] at h
  | str s => rfl
  | int n => rfl
  | float s => rfl
  | bool b => rfl
  | none => rfl
  | list xs => rfl

/-- C6 witness: the spread operand `[1, 2, 3]` is not a mapping and raises
`'list' object is not a mapping`; likewise `None` raises with `NoneType`. -/
theorem dict_spread_non_mapping_type_error_witness :
    isMapping (Val.list [Val.int 1, Val.int 2, Val.int 3]) = false ∧
    pipeline inputDictSpreadOnly [] [("spread", Val.list [Val.int 1, Val.int 2, Val.int 3])]
        (stdCbs mockFilter) =
      Except.error (Err.typeError "'list' object is not a mapping") ∧
    pipeline inputDictSpreadOnly [] [("spread", Val.none)] (stdCbs mockFilter) =
      Except.error (Err.typeError "'NoneType' object is not a mapping") :=
  ⟨rfl, dict_spread_non_mapping_type_error (Val.list [Val.int 1, Val.int 2, Val.int 3]) rfl,
    dict_spread_non_mapping_type_error Val.none rfl⟩

/-- C7: `{% t my_flag %}` with `flags={"my_flag"}` parses to a single
attribute with `is_flag = true`, and for every callback bundle and context
the compiled call yields `args=[]`, `kwargs=[]` (no output and no variable
resolution); with `flags={"MY_FLAG"}` the same input parses with
`is_flag = false` and the token resolves as a variable at invoke — the
flag-name match is case-sensitive. -/
theorem flag_case_sensitive_behavior :
    (∃ t a, parse_tag inputBareFlag ["my_flag"] = Except.ok t ∧ t.attrs = [a] ∧
      a.is_flag = true ∧
      ∀ (ctx : Ctx) (cb : Cbs),
        (compile_tag t).bind (fun cc => cc.invoke ctx cb) = Except.ok ([], [])) ∧
    (∃ t a, parse_tag inputBareFlag ["MY_FLAG"] = Except.ok t ∧ t.attrs = [a] ∧
      a.is_flag = false ∧
      ∀ v : Val, pipeline inputBareFlag ["MY_FLAG"] [("my_flag", v)] (stdCbs mockFilter) =
        Except.ok ([v], [])) :=
  ⟨⟨_, _, rfl, rfl, rfl, fun _ _ => rfl⟩, ⟨_, _, rfl, rfl, rfl, fun _ => rfl⟩⟩

/-- C7 witness: the flag run with the test callbacks, and the variable run
at the concrete value `"x"`. -/
theorem flag_case_sensitive_behavior_witness :
    pipeline inputBareFlag ["MY_FLAG"] [("my_flag", Val.str "x")] (stdCbs mockFilter) =
      Except.ok ([Val.str "x"], []) := by
  obtain ⟨-, t, a, -, -, -, h⟩ := flag_case_sensitive_behavior
  exact h (Val.str "x")

/-- A span fact to check against the original input: either a token
(marked when it is a translation token, whose text is canonicalized), or a
node's own `(start, (line, col))` stamp. -/
inductive SpanItem where
  | tok (t : TagToken) (isTranslation : Bool)
  | node (start : Nat) (lc : Nat × Nat)

mutual

/-- All span facts of a value node: its token, its own span stamp, and
those of its children and filters. -/
def valueSpanItems : TagValue → List SpanItem
  | .mk tok ch k _ fs a _ lc =>
    SpanItem.tok tok (k == ValueKind.translation) :: SpanItem.node a lc ::
      (valuesSpanItems ch ++ filtersSpanItems fs)
termination_by structural v => v

/-- Span facts of a list of value nodes. -/
def valuesSpanItems : List TagValue → List SpanItem
  | [] => []
  | v :: rest => valueSpanItems v ++ valuesSpanItems rest
termination_by structural vs => vs

/-- Span facts of a filter chain: each filter's name token, its node stamp,
and its argument's facts. -/
def filtersSpanItems : List TagValueFilter → List SpanItem
  | [] => []
  | .mk tok arg a _ lc :: rest =>
    SpanItem.tok tok false :: SpanItem.node a lc :: (argSpanItems arg ++ filtersSpanItems rest)
termination_by structural fs => fs

/-- Span facts of an optional filter argument. -/
def argSpanItems : Option TagValue → List SpanItem
  | Option.none => []
  | Option.some v => valueSpanItems v
termination_by structural arg => arg

end

/-- Span facts of an attribute: its own stamp, its key token, and its
value's facts. -/
def attrSpanItems (a : TagAttr) : List SpanItem :=
  SpanItem.node a.start_index a.line_col ::
    ((match a.key with
      | Option.some k => [SpanItem.tok k false]
      | Option.none => []) ++ valueSpanItems a.value)

/-- Span facts of a whole parse: the name token and every attribute's
facts (token, value and attr nodes — the claim's scope). -/
def tagSpanItems (t : Tag) : List SpanItem :=
  SpanItem.tok t.name false :: (t.attrs.map attrSpanItems).flatten

/-- Check one span fact against the original input: a token's `(line,col)`
must reconstruct from its start, and a non-translation token's text must be
the verbatim slice `input[start:end]`; a node stamp's `(line,col)` must
reconstruct from the node's start. -/
def spanItemOk (chars : List Char) : SpanItem → Bool
  | .tok t isTr =>
    (t.line_col == lineColAt chars t.start_index) &&
      (isTr || t.token == extractStr chars t.start_index t.end_index)
  | .node s lc => lc == lineColAt chars s

/-- C5 counterexample: in `{% component value=_(  "test"  ) %}` the
translation value's stored token is the canonicalized `_("test")` while the
verbatim slice `input[19:32]` is `_(  "test"  )` — the claimed verbatim
token/slice equality fails for translation tokens. -/
theorem translation_token_not_verbatim_slice :
    ∃ t a, parse_tag inputTranslationWs [] = Except.ok t ∧ t.attrs = [a] ∧
      a.value.token.token = "_(\"test\")" ∧
      extractStr inputTranslationWs.data a.value.token.start_index a.value.token.end_index =
        "_(  \"test\"  )" ∧
      a.value.token.token ≠
        extractStr inputTranslationWs.data a.value.token.start_index a.value.token.end_index := by
  refine ⟨_, _, rfl, rfl, rfl, rfl, ?_⟩
  decide

/-- Statically keyword-producing attribute: a `key=` pair or a `**` spread
(flags produce nothing). -/
def producesKeywordStatic (a : TagAttr) : Bool :=
  !a.is_flag && (a.key.isSome ||
    (match a.value.spread with
     | Option.some SpreadKind.dstar => true
     | _ => false))

/-- Statically positional-producing attribute: a plain positional value or
a `*` spread (not a flag, no key; `...` spreads are classified at call
time only). -/
def producesPositionalStatic (a : TagAttr) : Bool :=
  !a.is_flag && a.key.isNone &&
    (match a.value.spread with
     | Option.none => true
     | Option.some SpreadKind.star => true
     | _ => false)

/-- Once a keyword has been seen, any later statically positional
attribute makes the static check fail with the order error. -/
theorem staticOrderCheck_error_of_positional (l2 : List TagAttr) (b : TagAttr)
    (l3 : List TagAttr) (hb : producesPositionalStatic b = true) :
    staticOrderCheck (l2 ++ b :: l3) true = Except.error (Err.syntaxError orderErrMsg) := by
  induction l2 with
  | nil =>
    simp only [producesPositionalStatic, Bool.and_eq_true, Bool.not_eq_true'] at hb
    obtain ⟨⟨hf, hk⟩, hs⟩ := hb
    simp only [List.nil_append, staticOrderCheck, hf]
    cases hkey : b.key with
    | some k => rw [hkey] at hk; simp at hk
    | none =>
      cases hsp : b.value.spread with
      | none => simp
      | some sk =>
        rw [hsp] at hs
        cases sk with
        | star => simp
        | dstar => simp at hs
        | ellipsis => simp at hs
  | cons c l2 ih =>
    simp only [List.cons_append, staticOrderCheck]
    cases hf : c.is_flag with
    | true => simpa [hf] using ih
    | false =>
      simp only [hf, Bool.false_eq_true, if_false]
      cases hk : c.key with
      | some k => simpa using ih
      | none =>
        cases hsp : c.value.spread with
        | none => simp
        | some sk =>
          cases sk with
          | star => simp
          | dstar => simpa using ih
          | ellipsis => simpa using ih

/-- A statically keyword-producing attribute followed anywhere later by a
statically positional one makes the static check fail, from any starting
state. -/
theorem staticOrderCheck_error_of_kwarg_then_positional (l1 : List TagAttr) (a : TagAttr)
    (l2 : List TagAttr) (b : TagAttr) (l3 : List TagAttr) (s : Bool)
    (ha : producesKeywordStatic a = true) (hb : producesPositionalStatic b = true) :
    staticOrderCheck (l1 ++ a :: (l2 ++ b :: l3)) s =
      Except.error (Err.syntaxError orderErrMsg) := by
  induction l1 generalizing s with
  | nil =>
    simp only [producesKeywordStatic, Bool.and_eq_true, Bool.not_eq_true'] at ha
    obtain ⟨hf, hks⟩ := ha
    simp only [List.nil_append, staticOrderCheck, hf]
    cases hkey : a.key with
    | some k =>
      simp only [Bool.false_eq_true, if_false]
      exact staticOrderCheck_error_of_positional l2 b l3 hb
    | none =>
      rw [hkey] at hks
      simp only [Option.isSome_none, Bool.false_or] at hks
      cases hsp : a.value.spread with
      | none => rw [hsp] at hks; simp at hks
      | some sk =>
        rw [hsp] at hks
        cases sk with
        | star => simp at hks
        | ellipsis => simp at hks
        | dstar =>
          simp only [Bool.false_eq_true, if_false]
          exact staticOrderCheck_error_of_positional l2 b l3 hb
  | cons c l1 ih =>
    simp only [List.cons_append, staticOrderCheck]
    cases hf : c.is_flag with
    | true => simpa using ih s
    | false =>
      simp only [Bool.false_eq_true, if_false]
      cases hk : c.key with
      | some k => simpa using ih true
      | none =>
        cases hsp : c.value.spread with
        | none =>
          cases s with
          | true => simp
          | false => simpa using ih false
        | some sk =>
          cases sk with
          | star =>
            cases s with
            | true => simp
            | false => simpa using ih false
          | dstar => simpa using ih true
          | ellipsis => simpa using ih s

/-- C1: whenever a statically keyword-producing attribute precedes a
statically positional one, `compile_tag` fails immediately with
`SyntaxError: positional argument follows keyword argument`. -/
theorem compile_tag_positional_after_keyword_static_error (tag : Tag)
    (l1 l2 l3 : List TagAttr) (a b : TagAttr)
    (hattrs : tag.attrs = l1 ++ a :: (l2 ++ b :: l3))
    (ha : producesKeywordStatic a = true) (hb : producesPositionalStatic b = true) :
    compile_tag tag = Except.error (Err.syntaxError orderErrMsg) := by
  have hchk := staticOrderCheck_error_of_kwarg_then_positional l1 a l2 b l3 false ha hb
  simp only [compile_tag, hattrs, hchk, Except.bind]
  rfl

/-- C1 witness: compiling the parse of `{% t key='value' positional_arg %}`
raises the static order error before any invoke. -/
theorem compile_tag_positional_after_keyword_static_error_witness :
    ∃ t, parse_tag inputKwThenPos [] = Except.ok t ∧
      compile_tag t = Except.error (Err.syntaxError orderErrMsg) := by
  refine ⟨_, rfl, ?_⟩
  exact compile_tag_positional_after_keyword_static_error _ [] [] [] _ _ rfl rfl rfl

/-- Reduction of an `Except` bind on a success. -/
theorem except_bind_ok {α β : Type} (a : α) (f : α → Except Err β) :
    (Except.ok a >>= f) = f a := rfl

/-- Reduction of an `Except` bind on an error. -/
theorem except_bind_error {α β : Type} (e : Err) (f : α → Except Err β) :
    ((Except.error e : Except Err α) >>= f) = Except.error e := rfl

/-- Span facts of concatenated value lists split. -/
theorem valuesSpanItems_append (xs ys : List TagValue) :
    valuesSpanItems (xs ++ ys) = valuesSpanItems xs ++ valuesSpanItems ys := by
  induction xs with
  | nil => simp [valuesSpanItems]
  | cons v rest ih => simp [valuesSpanItems, ih]

/-- Span facts of concatenated filter lists split. -/
theorem filtersSpanItems_append (xs ys : List TagValueFilter) :
    filtersSpanItems (xs ++ ys) = filtersSpanItems xs ++ filtersSpanItems ys := by
  induction xs with
  | nil => simp [filtersSpanItems]
  | cons f rest ih =>
    cases f with
    | mk tok arg a b lc => simp [filtersSpanItems, ih]

/-- Any token built by `mkTok` satisfies the span check. -/
theorem spanItemOk_mkTok (chars : List Char) (a b : Nat) (isTr : Bool) :
    spanItemOk chars (SpanItem.tok (mkTok chars a b) isTr) = true := by
  simp [spanItemOk, mkTok]

/-- Any node stamped with `lineColAt` of its start satisfies the check. -/
theorem spanItemOk_node (chars : List Char) (s : Nat) :
    spanItemOk chars (SpanItem.node s (lineColAt chars s)) = true := by
  simp [spanItemOk]

/-- A leaf node over an `mkTok` token satisfies the span checks. -/
theorem leaf_value_ok (chars : List Char) (a b : Nat) (k : ValueKind) :
    (valueSpanItems (TagValue.mk (mkTok chars a b) [] k Option.none [] a b
      (lineColAt chars a))).all (spanItemOk chars) = true := by
  simp [valueSpanItems, valuesSpanItems, filtersSpanItems, spanItemOk, mkTok]

/-- The translation node (canonicalized token, span stamped from the
input) satisfies the span checks. -/
theorem translation_value_ok (chars : List Char) (canon : String) (a b : Nat) :
    (valueSpanItems (TagValue.mk ⟨canon, a, b, lineColAt chars a⟩ [] ValueKind.translation
      Option.none [] a b (lineColAt chars a))).all (spanItemOk chars) = true := by
  simp [valueSpanItems, valuesSpanItems, filtersSpanItems, spanItemOk]

/-- `assembleValue` preserves the span checks of its atom and filters. -/
theorem assembleValue_ok (chars : List Char) (atom : TagValue) (fs : List TagValueFilter)
    (spread : Option (SpreadKind × Nat)) (endPos : Nat)
    (h1 : (valueSpanItems atom).all (spanItemOk chars) = true)
    (h2 : (filtersSpanItems fs).all (spanItemOk chars) = true) :
    (valueSpanItems (assembleValue chars atom fs spread endPos)).all (spanItemOk chars) = true := by
  cases atom with
  | mk tok ch k sp fs0 a e lc =>
    simp only [valueSpanItems, List.all_cons, List.all_append, Bool.and_eq_true] at h1
    obtain ⟨htok, -, hch, -⟩ := h1
    cases spread with
    | none =>
      simp [assembleValue, valueSpanItems, List.all_cons, List.all_append, htok, hch, h2,
        spanItemOk_node]
    | some p =>
      obtain ⟨sk, len⟩ := p
      simp [assembleValue, valueSpanItems, List.all_cons, List.all_append, htok, hch, h2,
        spanItemOk_node]

/-- `argValueSpan` preserves the span checks of its atom. -/
theorem argValueSpan_ok (chars : List Char) (atom : TagValue) (colonPos endPos : Nat)
    (h1 : (valueSpanItems atom).all (spanItemOk chars) = true) :
    (valueSpanItems (argValueSpan chars atom colonPos endPos)).all (spanItemOk chars) = true := by
  cases atom with
  | mk tok ch k sp fs0 a e lc =>
    simp only [valueSpanItems, List.all_cons, List.all_append, Bool.and_eq_true] at h1
    obtain ⟨htok, -, hch, hfs⟩ := h1
    simp [argValueSpan, valueSpanItems, List.all_cons, List.all_append, htok, hch, hfs,
      spanItemOk_node]

/-- An `Except` bind succeeds exactly when both stages do. -/
theorem bind_eq_ok {α β : Type} {m : Except Err α} {f : α → Except Err β} {b : β} :
    (m >>= f) = Except.ok b ↔ ∃ a, m = Except.ok a ∧ f a = Except.ok b := by
  cases m with
  | error e => simp [except_bind_error]
  | ok a => simp [except_bind_ok]

set_option maxHeartbeats 2000000 in
/-- Every node produced by the grammar's value-level functions satisfies
the span checks (mutual induction on fuel). -/
theorem parser_span_items_ok : ∀ fuel : Nat,
    (∀ chars pos v p, parseAtom fuel chars pos = Except.ok (v, p) →
      (valueSpanItems v).all (spanItemOk chars) = true) ∧
    (∀ chars pos v p, parseDictRest fuel chars pos = Except.ok (v, p) →
      (valueSpanItems v).all (spanItemOk chars) = true) ∧
    (∀ chars pos acc lst p, parseDictItems fuel chars pos acc = Except.ok (lst, p) →
      (valuesSpanItems acc).all (spanItemOk chars) = true →
      (valuesSpanItems lst).all (spanItemOk chars) = true) ∧
    (∀ chars pos acc lst p, parseDictSep fuel chars pos acc = Except.ok (lst, p) →
      (valuesSpanItems acc).all (spanItemOk chars) = true →
      (valuesSpanItems lst).all (spanItemOk chars) = true) ∧
    (∀ chars pos v p, parseListRest fuel chars pos = Except.ok (v, p) →
      (valueSpanItems v).all (spanItemOk chars) = true) ∧
    (∀ chars pos acc lst p, parseListItems fuel chars pos acc = Except.ok (lst, p) →
      (valuesSpanItems acc).all (spanItemOk chars) = true →
      (valuesSpanItems lst).all (spanItemOk chars) = true) ∧
    (∀ chars pos acc lst p, parseListSep fuel chars pos acc = Except.ok (lst, p) →
      (valuesSpanItems acc).all (spanItemOk chars) = true →
      (valuesSpanItems lst).all (spanItemOk chars) = true) ∧
    (∀ chars pos aa acc fs p, parseFilterChain fuel chars pos aa acc = Except.ok (fs, p) →
      (filtersSpanItems acc).all (spanItemOk chars) = true →
      (filtersSpanItems fs).all (spanItemOk chars) = true) ∧
    (∀ chars pos aa spread v p, parseValueFull fuel chars pos aa spread = Except.ok (v, p) →
      (valueSpanItems v).all (spanItemOk chars) = true) := by
  intro fuel
  induction fuel with
  | zero =>
    refine ⟨?_, ?_, ?_, ?_, ?_, ?_, ?_, ?_, ?_⟩ <;>
      intro chars pos <;> intros <;>
      simp_all [parseAtom, parseDictRest, parseDictItems, parseDictSep, parseListRest,
        parseListItems, parseListSep, parseFilterChain, parseValueFull]
  | succ n ih =>
    obtain ⟨ihA, ihDR, ihDI, ihDS, ihLR, ihLI, ihLS, ihFC, ihVF⟩ := ih
    refine ⟨?_, ?_, ?_, ?_, ?_, ?_, ?_, ?_, ?_⟩
    -- parseAtom
    · intro chars pos v p h
      simp only [parseAtom] at h
      cases hc : chars[pos]? with
      | none => simp only [hc] at h; exact Except.noConfusion h
      | some c =>
        simp only [hc] at h
        split at h
        · -- string literal
          cases hs : scanStringEnd (chars.length + 2) chars c (pos + 1) with
          | none => simp only [hs] at h; exact Except.noConfusion h
          | some tokEnd =>
            simp only [hs, Except.ok.injEq, Prod.mk.injEq] at h
            obtain ⟨hv, -⟩ := h
            subst hv
            exact leaf_value_ok ..
        · split at h
          · -- translation
            rw [bind_eq_ok] at h
            obtain ⟨p1, hw, h⟩ := h
            cases hq : chars[p1]? with
            | none => simp only [hq] at h; exact Except.noConfusion h
            | some q =>
              simp only [hq] at h
              split at h
              · cases hs : scanStringEnd (chars.length + 2) chars q (p1 + 1) with
                | none => simp only [hs] at h; exact Except.noConfusion h
                | some qEnd =>
                  simp only [hs] at h
                  rw [bind_eq_ok] at h
                  obtain ⟨p2, hw2, h⟩ := h
                  split at h
                  · simp only [Except.ok.injEq, Prod.mk.injEq] at h
                    obtain ⟨hv, -⟩ := h
                    subst hv
                    exact translation_value_ok ..
                  · exact Except.noConfusion h
              · exact Except.noConfusion h
          · split at h
            · exact ihDR chars pos v p h
            · split at h
              · exact ihLR chars pos v p h
              · split at h
                · simp only [Except.ok.injEq, Prod.mk.injEq] at h
                  obtain ⟨hv, -⟩ := h
                  subst hv
                  exact leaf_value_ok ..
                · exact Except.noConfusion h
    -- parseDictRest
    · intro chars pos v p h
      simp only [parseDictRest] at h
      rw [bind_eq_ok] at h
      obtain ⟨⟨children, endPos⟩, hd, h⟩ := h
      simp only [Except.ok.injEq, Prod.mk.injEq] at h
      obtain ⟨hv, -⟩ := h
      subst hv
      have hch := ihDI chars (pos + 1) [] children endPos hd (by simp [valuesSpanItems])
      simp [valueSpanItems, valuesSpanItems, filtersSpanItems, List.all_cons,
        List.all_append, spanItemOk_mkTok, spanItemOk_node, hch]
    -- parseDictItems
    · intro chars pos acc lst p h hacc
      simp only [parseDictItems] at h
      rw [bind_eq_ok] at h
      obtain ⟨p1, hw, h⟩ := h
      split at h
      · simp only [Except.ok.injEq, Prod.mk.injEq] at h
        obtain ⟨hl, -⟩ := h
        subst hl
        exact hacc
      · split at h
        · -- dstar item
          rw [bind_eq_ok] at h
          obtain ⟨p2, hw2, h⟩ := h
          rw [bind_eq_ok] at h
          obtain ⟨⟨v1, p3⟩, hv, h⟩ := h
          refine ihDS chars p3 (acc ++ [v1]) lst p h ?_
          have hv1 := ihVF chars p2 true (Option.some (SpreadKind.dstar, 2)) v1 p3 hv
          simp [valuesSpanItems_append, valuesSpanItems, List.all_append, hacc, hv1]
        · split at h
          · exact Except.noConfusion h
          · -- key/value pair
            rw [bind_eq_ok] at h
            obtain ⟨⟨keyAtom, p2⟩, hk, h⟩ := h
            rw [bind_eq_ok] at h
            obtain ⟨⟨keyFilters, p3⟩, hf, h⟩ := h
            rw [bind_eq_ok] at h
            obtain ⟨p4, hw3, h⟩ := h
            split at h
            · rw [bind_eq_ok] at h
              obtain ⟨p5, hw4, h⟩ := h
              rw [bind_eq_ok] at h
              obtain ⟨⟨v1, p6⟩, hv, h⟩ := h
              refine ihDS chars p6 _ lst p h ?_
              have hkey := assembleValue_ok chars keyAtom keyFilters Option.none p3
                (ihA chars p1 keyAtom p2 hk)
                (ihFC chars p2 false [] keyFilters p3 hf (by simp [filtersSpanItems]))
              have hv1 := ihVF chars p5 true Option.none v1 p6 hv
              simp [valuesSpanItems_append, valuesSpanItems, List.all_append, hacc, hkey, hv1]
            · exact Except.noConfusion h
    -- parseDictSep
    · intro chars pos acc lst p h hacc
      simp only [parseDictSep] at h
      rw [bind_eq_ok] at h
      obtain ⟨p1, hw, h⟩ := h
      split at h
      · exact ihDI chars (p1 + 1) acc lst p h hacc
      · split at h
        · simp only [Except.ok.injEq, Prod.mk.injEq] at h
          obtain ⟨hl, -⟩ := h
          subst hl
          exact hacc
        · exact Except.noConfusion h
    -- parseListRest
    · intro chars pos v p h
      simp only [parseListRest] at h
      rw [bind_eq_ok] at h
      obtain ⟨⟨children, endPos⟩, hd, h⟩ := h
      simp only [Except.ok.injEq, Prod.mk.injEq] at h
      obtain ⟨hv, -⟩ := h
      subst hv
      have hch := ihLI chars (pos + 1) [] children endPos hd (by simp [valuesSpanItems])
      simp [valueSpanItems, valuesSpanItems, filtersSpanItems, List.all_cons,
        List.all_append, spanItemOk_mkTok, spanItemOk_node, hch]
    -- parseListItems
    · intro chars pos acc lst p h hacc
      simp only [parseListItems] at h
      rw [bind_eq_ok] at h
      obtain ⟨p1, hw, h⟩ := h
      split at h
      · simp only [Except.ok.injEq, Prod.mk.injEq] at h
        obtain ⟨hl, -⟩ := h
        subst hl
        exact hacc
      · split at h
        · exact Except.noConfusion h
        · split at h
          · exact Except.noConfusion h
          · split at h
            · -- star item
              rw [bind_eq_ok] at h
              obtain ⟨p2, hw2, h⟩ := h
              rw [bind_eq_ok] at h
              obtain ⟨⟨v1, p3⟩, hv, h⟩ := h
              refine ihLS chars p3 (acc ++ [v1]) lst p h ?_
              have hv1 := ihVF chars p2 true (Option.some (SpreadKind.star, 1)) v1 p3 hv
              simp [valuesSpanItems_append, valuesSpanItems, List.all_append, hacc, hv1]
            · -- plain item
              rw [bind_eq_ok] at h
              obtain ⟨⟨v1, p3⟩, hv, h⟩ := h
              refine ihLS chars p3 (acc ++ [v1]) lst p h ?_
              have hv1 := ihVF chars p1 true Option.none v1 p3 hv
              simp [valuesSpanItems_append, valuesSpanItems, List.all_append, hacc, hv1]
    -- parseListSep
    · intro chars pos acc lst p h hacc
      simp only [parseListSep] at h
      rw [bind_eq_ok] at h
      obtain ⟨p1, hw, h⟩ := h
      split at h
      · exact ihLI chars (p1 + 1) acc lst p h hacc
      · split at h
        · simp only [Except.ok.injEq, Prod.mk.injEq] at h
          obtain ⟨hl, -⟩ := h
          subst hl
          exact hacc
        · exact Except.noConfusion h
    -- parseFilterChain
    · intro chars pos aa acc fs p h hacc
      simp only [parseFilterChain] at h
      rw [bind_eq_ok] at h
      obtain ⟨p1, hw, h⟩ := h
      split at h
      · -- a filter follows
        rw [bind_eq_ok] at h
        obtain ⟨p2, hw2, h⟩ := h
        split at h
        · exact Except.noConfusion h
        · rw [bind_eq_ok] at h
          obtain ⟨p3, hw3, h⟩ := h
          split at h
          · -- filter with argument
            rw [bind_eq_ok] at h
            obtain ⟨p4, hw4, h⟩ := h
            rw [bind_eq_ok] at h
            obtain ⟨⟨argAtom, p5⟩, ha, h⟩ := h
            refine ihFC chars p5 aa _ fs p h ?_
            have harg := argValueSpan_ok chars argAtom p3 p5 (ihA chars p4 argAtom p5 ha)
            simp [filtersSpanItems_append, filtersSpanItems, argSpanItems, List.all_append,
              List.all_cons, hacc, harg, spanItemOk_mkTok, spanItemOk_node]
          · -- filter without argument
            refine ihFC chars _ aa _ fs p h ?_
            simp [filtersSpanItems_append, filtersSpanItems, argSpanItems, List.all_append,
              List.all_cons, hacc, spanItemOk_mkTok, spanItemOk_node]
      · simp only [Except.ok.injEq, Prod.mk.injEq] at h
        obtain ⟨hl, -⟩ := h
        subst hl
        exact hacc
    -- parseValueFull
    · intro chars pos aa spread v p h
      simp only [parseValueFull] at h
      rw [bind_eq_ok] at h
      obtain ⟨⟨atom, p1⟩, ha, h⟩ := h
      rw [bind_eq_ok] at h
      obtain ⟨⟨fs1, p2⟩, hf, h⟩ := h
      simp only [Except.ok.injEq, Prod.mk.injEq] at h
      obtain ⟨hv, -⟩ := h
      subst hv
      exact assembleValue_ok chars atom fs1 spread p2 (ihA chars pos atom p1 ha)
        (ihFC chars p1 aa [] fs1 p2 hf (by simp [filtersSpanItems]))

/-- Every attribute produced by `parseAttr` satisfies the span checks. -/
theorem parseAttr_ok (fuel : Nat) (chars : List Char) (pos : Nat) (flags : List String)
    (a : TagAttr) (p : Nat) (h : parseAttr fuel chars pos flags = Except.ok (a, p)) :
    (attrSpanItems a).all (spanItemOk chars) = true := by
  match fuel with
  | 0 => simp [parseAttr] at h
  | n + 1 =>
    simp only [parseAttr] at h
    split at h
    · -- `...` spread attribute
      rw [bind_eq_ok] at h
      obtain ⟨⟨v1, p2⟩, hv, h⟩ := h
      split at h
      · simp only [Except.ok.injEq, Prod.mk.injEq] at h
        obtain ⟨ha, -⟩ := h
        subst ha
        have hv1 := (parser_span_items_ok n).2.2.2.2.2.2.2.2 chars (pos + 3) true
          (Option.some (SpreadKind.ellipsis, 3)) v1 p2 hv
        simp [attrSpanItems, List.all_cons, List.all_append, spanItemOk_node, hv1]
      · exact Except.noConfusion h
    · split at h
      · exact Except.noConfusion h
      · split at h
        · -- key=value attribute
          split at h
          · exact Except.noConfusion h
          · rw [bind_eq_ok] at h
            obtain ⟨⟨v1, p2⟩, hv, h⟩ := h
            simp only [Except.ok.injEq, Prod.mk.injEq] at h
            obtain ⟨ha, -⟩ := h
            subst ha
            have hv1 := (parser_span_items_ok n).2.2.2.2.2.2.2.2 chars _ true Option.none
              v1 p2 hv
            simp [attrSpanItems, List.all_cons, List.all_append, spanItemOk_node,
              spanItemOk_mkTok, hv1]
        · -- plain positional / flag attribute
          rw [bind_eq_ok] at h
          obtain ⟨⟨v1, p2⟩, hv, h⟩ := h
          simp only [Except.ok.injEq, Prod.mk.injEq] at h
          obtain ⟨ha, -⟩ := h
          subst ha
          have hv1 := (parser_span_items_ok n).2.2.2.2.2.2.2.2 chars pos true Option.none
            v1 p2 hv
          simp [attrSpanItems, List.all_cons, List.all_append, spanItemOk_node, hv1]

/-- Every attribute list produced by `parseAttrs` satisfies the span
checks (induction on fuel, carrying the accumulated attributes). -/
theorem parseAttrs_ok : ∀ (fuel : Nat) (chars : List Char) (pos : Nat) (flags : List String)
    (acc : List TagAttr) (seen : List String) (attrs : List TagAttr) (sc : Bool),
    parseAttrs fuel chars pos flags acc seen = Except.ok (attrs, sc) →
    ((acc.map attrSpanItems).flatten).all (spanItemOk chars) = true →
    ((attrs.map attrSpanItems).flatten).all (spanItemOk chars) = true := by
  intro fuel
  induction fuel with
  | zero =>
    intro chars pos flags acc seen attrs sc h hacc
    simp [parseAttrs] at h
  | succ n ih =>
    intro chars pos flags acc seen attrs sc h hacc
    simp only [parseAttrs] at h
    rw [bind_eq_ok] at h
    obtain ⟨p1, hw, h⟩ := h
    split at h
    · -- closing delimiter
      split at h
      · simp only [Except.ok.injEq, Prod.mk.injEq] at h
        obtain ⟨hl, -⟩ := h
        subst hl
        exact hacc
      · exact Except.noConfusion h
    · split at h
      · -- self-closing slash
        rw [bind_eq_ok] at h
        obtain ⟨p2, hw2, h⟩ := h
        split at h
        · simp only [Except.ok.injEq, Prod.mk.injEq] at h
          obtain ⟨hl, -⟩ := h
          subst hl
          exact hacc
        · exact Except.noConfusion h
      · cases hcp : chars[p1]? with
        | none => simp only [hcp] at h; exact Except.noConfusion h
        | some c =>
          simp only [hcp] at h
          rw [bind_eq_ok] at h
          obtain ⟨⟨a1, p2⟩, hA, h⟩ := h
          have haok := parseAttr_ok n chars p1 flags a1 p2 hA
          split at h
          · split at h
            · exact Except.noConfusion h
            · refine ih chars p2 flags (acc ++ [a1]) _ attrs sc h ?_
              simp [List.map_append, List.flatten_append, List.all_append, hacc, haok]
          · refine ih chars p2 flags (acc ++ [a1]) seen attrs sc h ?_
            simp [List.map_append, List.flatten_append, List.all_append, hacc, haok]

/-- C5 (amended): span fidelity for every successful parse — for every
token and every value/attr node, the stored `(line, col)` reconstructs
exactly from `start_index` over the original input, and every token except
the canonicalized translation tokens stores the verbatim slice
`input[start_index:end_index]`. -/
theorem parse_tag_span_fidelity (input : String) (flags : List String) (t : Tag)
    (h : parse_tag input flags = Except.ok t) :
    (tagSpanItems t).all (spanItemOk input.data) = true := by
  simp only [parse_tag] at h
  split at h
  · rw [bind_eq_ok] at h
    obtain ⟨p1, hw, h⟩ := h
    split at h
    · exact Except.noConfusion h
    · rw [bind_eq_ok] at h
      obtain ⟨⟨attrs, sc⟩, hA, h⟩ := h
      simp only [Except.ok.injEq] at h
      subst h
      have hattrs := parseAttrs_ok _ input.data _ flags [] [] attrs sc hA (by simp)
      simp [tagSpanItems, List.all_cons, spanItemOk_mkTok, hattrs]
  · exact Except.noConfusion h

/-- C5 witness: span fidelity evaluated on the translation input. -/
theorem parse_tag_span_fidelity_witness :
    ∃ t, parse_tag inputTranslationWs [] = Except.ok t ∧
      (tagSpanItems t).all (spanItemOk inputTranslationWs.data) = true := by
  refine ⟨_, rfl, ?_⟩
  exact parse_tag_span_fidelity inputTranslationWs [] _ rfl

/-- Test-style input: a mixed call — a positional string, a keyword, a
dict `...` spread, and the same keyword declared again. -/
def inputMixedDupKwarg : String := "\x7b% t 'a' key_five=1 ...\x7b'k':'v'\x7d key_five=2 %\x7d"

/-- The keyword pairs a single executed attribute contributes: a `key=`
attribute yields its one `(name, value)` pair; a `...`/`**` spread whose
operand evaluates to a mapping yields that mapping's pairs in insertion
order; every other attribute (plain positional, `*` spread, `...` spread
over an iterable) yields none. -/
def attrKwargs (cb : Cbs) (ctx : Ctx) (a : TagAttr) : Except Err (List (String × Val)) :=
  match a.key with
  | Option.some k => do
    let v ← evalValue cb ctx a.value
    Except.ok [(k.token, v)]
  | Option.none =>
    match a.value.spread with
    | Option.none => Except.ok []
    | Option.some SpreadKind.star => Except.ok []
    | Option.some SpreadKind.ellipsis => do
      let v ← evalValue cb ctx a.value
      match v with
      | .dict es => kwargsOfEntries es
      | _ => Except.ok []
    | Option.some SpreadKind.dstar => do
      let v ← evalValue cb ctx a.value
      match v with
      | .dict es => kwargsOfEntries es
      | _ => Except.ok []

/-- Per-attribute keyword contributions of a whole plan, in source order. -/
def attrsKwargs (cb : Cbs) (ctx : Ctx) : List TagAttr → Except Err (List (List (String × Val)))
  | [] => Except.ok []
  | a :: rest => do
    let k ← attrKwargs cb ctx a
    let ks ← attrsKwargs cb ctx rest
    Except.ok (k :: ks)

/-- Executing any attribute plan appends to the keyword buffer exactly the
concatenation, in source order, of each attribute's keyword contribution. -/
theorem invokeAttrs_kwargs_concat (cb : Cbs) (ctx : Ctx) : ∀ (attrs : List TagAttr)
    (args : List Val) (kwargs : List (String × Val)) (s : Bool) (outA : List Val)
    (outK : List (String × Val)),
    invokeAttrs cb ctx attrs args kwargs s = Except.ok (outA, outK) →
    ∃ contribs, attrsKwargs cb ctx attrs = Except.ok contribs ∧
      outK = kwargs ++ contribs.flatten := by
  intro attrs
  induction attrs with
  | nil =>
    intro args kwargs s outA outK h
    simp only [invokeAttrs, Except.ok.injEq, Prod.mk.injEq] at h
    obtain ⟨-, hk⟩ := h
    subst hk
    exact ⟨[], rfl, by simp⟩
  | cons a rest ih =>
    intro args kwargs s outA outK h
    simp only [invokeAttrs] at h
    cases hk : a.key with
    | some k =>
      simp only [hk] at h
      rw [bind_eq_ok] at h
      obtain ⟨v, he, h⟩ := h
      obtain ⟨contribs, hc, hout⟩ := ih _ _ _ _ _ h
      refine ⟨[(k.token, v)] :: contribs, ?_, ?_⟩
      · simp [attrsKwargs, attrKwargs, hk, he, hc, except_bind_ok]
      · simp [hout]
    | none =>
      simp only [hk] at h
      cases hs : a.value.spread with
      | none =>
        simp only [hs] at h
        split at h
        · exact Except.noConfusion h
        · rw [bind_eq_ok] at h
          obtain ⟨v, he, h⟩ := h
          obtain ⟨contribs, hc, hout⟩ := ih _ _ _ _ _ h
          refine ⟨[] :: contribs, ?_, ?_⟩
          · simp [attrsKwargs, attrKwargs, hk, hs, hc, except_bind_ok]
          · simp [hout]
      | some sk =>
        cases sk with
        | ellipsis =>
          simp only [hs] at h
          rw [bind_eq_ok] at h
          obtain ⟨v, he, h⟩ := h
          cases v with
          | dict es =>
            rw [bind_eq_ok] at h
            obtain ⟨kws, hkw, h⟩ := h
            obtain ⟨contribs, hc, hout⟩ := ih _ _ _ _ _ h
            refine ⟨kws :: contribs, ?_, ?_⟩
            · simp [attrsKwargs, attrKwargs, hk, hs, he, hkw, hc, except_bind_ok]
            · simp [hout]
          | str s2 =>
            simp only [iterateVal] at h
            split at h
            · exact Except.noConfusion h
            · obtain ⟨contribs, hc, hout⟩ := ih _ _ _ _ _ h
              refine ⟨[] :: contribs, ?_, ?_⟩
              · simp [attrsKwargs, attrKwargs, hk, hs, he, hc, except_bind_ok]
              · simp [hout]
          | list xs =>
            simp only [iterateVal] at h
            split at h
            · exact Except.noConfusion h
            · obtain ⟨contribs, hc, hout⟩ := ih _ _ _ _ _ h
              refine ⟨[] :: contribs, ?_, ?_⟩
              · simp [attrsKwargs, attrKwargs, hk, hs, he, hc, except_bind_ok]
              · simp [hout]
          | int n => simp only [iterateVal] at h; exact Except.noConfusion h
          | float f => simp only [iterateVal] at h; exact Except.noConfusion h
          | bool b => simp only [iterateVal] at h; exact Except.noConfusion h
          | none => simp only [iterateVal] at h; exact Except.noConfusion h
        | star =>
          simp only [hs] at h
          rw [bind_eq_ok] at h
          obtain ⟨v, he, h⟩ := h
          cases hit : iterateVal v with
          | none => simp only [hit] at h; exact Except.noConfusion h
          | some xs =>
            simp only [hit] at h
            split at h
            · exact Except.noConfusion h
            · obtain ⟨contribs, hc, hout⟩ := ih _ _ _ _ _ h
              refine ⟨[] :: contribs, ?_, ?_⟩
              · simp [attrsKwargs, attrKwargs, hk, hs, hc, except_bind_ok]
              · simp [hout]
        | dstar =>
          simp only [hs] at h
          rw [bind_eq_ok] at h
          obtain ⟨v, he, h⟩ := h
          cases v with
          | dict es =>
            rw [bind_eq_ok] at h
            obtain ⟨kws, hkw, h⟩ := h
            obtain ⟨contribs, hc, hout⟩ := ih _ _ _ _ _ h
            refine ⟨kws :: contribs, ?_, ?_⟩
            · simp [attrsKwargs, attrKwargs, hk, hs, he, hkw, hc, except_bind_ok]
            · simp [hout]
          | str s2 => exact Except.noConfusion h
          | list xs => exact Except.noConfusion h
          | int n => exact Except.noConfusion h
          | float f => exact Except.noConfusion h
          | bool b => exact Except.noConfusion h
          | none => exact Except.noConfusion h

/-- C8: for every compiled call that `invoke` accepts, the keyword buffer
returned is exactly the concatenation, in declaration (source) order, of
each attribute's keyword contribution — each `key=` attribute contributes
its own `(name, value)` pair in place, so duplicate keys are kept verbatim
and no deduplication or last-wins merging happens at the top level. -/
theorem invoke_kwargs_are_declaration_ordered_contributions (cb : Cbs) (ctx : Ctx)
    (cc : CompiledCall) (outA : List Val) (outK : List (String × Val))
    (h : cc.invoke ctx cb = Except.ok (outA, outK)) :
    ∃ contribs, attrsKwargs cb ctx cc.steps = Except.ok contribs ∧
      outK = contribs.flatten := by
  obtain ⟨contribs, hc, hout⟩ :=
    invokeAttrs_kwargs_concat cb ctx cc.steps [] [] false outA outK h
  exact ⟨contribs, hc, by simpa using hout⟩

/-- C8 witness: a mixed call — positional `'a'`, `key_five=1`, a dict
spread, `key_five=2` — keeps both `key_five` pairs verbatim in source
order around the spread's pair. -/
theorem invoke_kwargs_are_declaration_ordered_contributions_witness :
    ∃ t cc, parse_tag inputMixedDupKwarg [] = Except.ok t ∧
      compile_tag t = Except.ok cc ∧
      ∃ outA outK, cc.invoke [] (stdCbs mockFilter) = Except.ok (outA, outK) ∧
        outA = [Val.str "a"] ∧
        outK = [("key_five", Val.int 1), ("k", Val.str "v"), ("key_five", Val.int 2)] ∧
        ∃ contribs, attrsKwargs (stdCbs mockFilter) [] cc.steps = Except.ok contribs ∧
          outK = contribs.flatten := by
  refine ⟨_, _, rfl, rfl, _, _, rfl, rfl, rfl, ?_⟩
  exact invoke_kwargs_are_declaration_ordered_contributions (stdCbs mockFilter) [] _ _ _ rfl
